import Mathlib

/-!
Verification of the Raspberry Pi Pico 18-bit VGA driver (src/vga.c).

The driver keeps a byte array `vga_data_array` of `TXCOUNT` entries, mutated
by `drawPixel` and streamed forever to the RGB PIO state machine by a pair of
chained DMA channels.  We embed the pixel store as a function from indices to
byte values, `drawPixel` as a store transformer mirroring the C code line by
line, the chained DMA pair as a small state machine, and the start-up
sequence as the ordered list of its hardware calls.
-/

namespace VGA

/-- Timing constant `H_ACTIVE` from src/vga.c line 48. -/
def H_ACTIVE : Nat := 655

/-- Timing constant `V_ACTIVE` from src/vga.c line 49. -/
def V_ACTIVE : Nat := 349

/-- Timing constant `RGB_ACTIVE` from src/vga.c line 50. -/
def RGB_ACTIVE : Nat := 639

/-- Constant `TXCOUNT` from src/vga.c line 53: length of `vga_data_array` and number of
DMA transfers per frame. -/
def TXCOUNT : Nat := 224000

/-- The pixel store models `unsigned char vga_data_array[TXCOUNT]`: a map from
array index to stored byte value (every value is in `[0, 256)` when produced
by `drawPixel`). -/
abbrev PixelStore := Nat → Nat

/-- The store at program start: the array is zero-initialized (all black),
src/vga.c line 57. -/
def zeroStore : PixelStore := fun _ => 0

/-- A single array element assignment `vga_data_array[i] = v`. -/
def writeStore (s : PixelStore) (i v : Nat) : PixelStore :=
  fun j => if j = i then v else s j

/-- Function `drawPixel` from src/vga.c lines 70-80, including the implicit conversion
of the `int` color argument to the (unsigned, on ARM) `char` parameter, which
keeps the value modulo 256:

    void drawPixel(int x, int y, char color) \x7b
        if (x > 639) x = 639;
        if (x < 0) x = 0;
        if (y < 0) y = 0;
        if (y > 349) y = 349;
        int pixel = ((640 * y) + x);
        vga_data_array[pixel] = color;
    \x7d
-/
def drawPixel (s : PixelStore) (x y color : Int) : PixelStore :=
  let x1 : Int := if x > 639 then 639 else x
  let x2 : Int := if x1 < 0 then 0 else x1
  let y1 : Int := if y < 0 then 0 else y
  let y2 : Int := if y1 > 349 then 349 else y1
  let pixel : Int := 640 * y2 + x2
  writeStore s pixel.toNat (color % 256).toNat

/-- The inverse read of the packing map: the byte the DMA streamer emits for
pixel `(x, y)`, namely array element `640*y + x` (the store holds one byte
per pixel, row-major). -/
def readPixel (s : PixelStore) (x y : Int) : Nat :=
  s (640 * y + x).toNat

/-- Clamping of the spec: of `x` to `[0, activeWidth-1]`. -/
def specClampX (x : Int) : Int := max 0 (min x 639)

/-- Clamping of the spec: of `y` to `[0, activeHeight-1]`. -/
def specClampY (y : Int) : Int := max 0 (min y 349)

example : drawPixel zeroStore 0 0 63 0 = 63 := by decide
example : readPixel (drawPixel zeroStore 3 5 42) 3 5 = 42 := by decide
example : drawPixel zeroStore 1000 (-7) 9 (640 * 0 + 639) = 9 := by decide

/-!
The chained DMA pair (Streamer / Rearmer).

src/vga.c lines 121-156 configure DMA channel 0 (the Streamer) to copy
`TXCOUNT` bytes from `vga_data_array` into the RGB PIO TX FIFO, incrementing
its read address each transfer and paced by the data request of the FIFO, chained
to channel 1 (the Rearmer); channel 1 writes `address_pointer`
(`&vga_data_array[0]`) back into the read-address register of channel 0 and chains
back to channel 0, which restarts with `TXCOUNT` transfers.  Line 179 starts
channel 0.  Modelled from the spec: the step semantics of the chained
transfer hardware itself (emit the word under the cursor, advance, and on
exhaustion let the Rearmer reset the cursor to the start and re-arm the full
count) is hardware behavior not present in the repository; we take it from
spec section 4.2, with the configuration constants (count `N = TXCOUNT`,
reset to index 0) from src/vga.c.
-/

/-- Streamer state: `cursor` is the read offset of DMA channel 0 into the store,
`remaining` its remaining transfer count. -/
structure StreamerState where
  cursor : Nat
  remaining : Nat
  deriving DecidableEq

/-- The state in which channel 0 is (re-)armed: read address at the start of
the array, `N` transfers to go. -/
def streamInit (N : Nat) : StreamerState := ⟨0, N⟩

/-- One consumption event: the Streamer emits the word under its cursor and
advances; when its transfer count is exhausted the Rearmer resets the cursor
to 0 and re-arms the full count before the next event. -/
def streamStep (N : Nat) (st : StreamerState) : StreamerState :=
  if st.remaining - 1 = 0 then streamInit N
  else ⟨st.cursor + 1, st.remaining - 1⟩

/-- The word delivered to the color channel on the `n`-th consumption event
(counting from 0) after scanout starts. -/
def nthWord (N : Nat) (words : Nat → Nat) (n : Nat) : Nat :=
  words (((streamStep N)^[n] (streamInit N)).cursor)

/-- The first `k` words delivered to the color channel. -/
def streamList (N : Nat) (words : Nat → Nat) (k : Nat) : List Nat :=
  (List.range k).map (nthWord N words)

/-- Example store of the spec, of size 5 holding `[1,2,3,4,5]`. -/
def exWords : Nat → Nat := fun i => [1, 2, 3, 4, 5].getD i 0

example : streamList 5 exWords 12 = [1, 2, 3, 4, 5, 1, 2, 3, 4, 5, 1, 2] := by decide

/-!
The start-up sequence of `main`.

src/vga.c lines 99-179: the hardware calls of `main` before the demo loop,
in program order.
-/

/-- The three PIO timing state machines of src/vga.c: hsync (sm 0), vsync
(sm 1) and rgb/color (sm 2). -/
inductive Channel where
  | hsync
  | vsync
  | rgb
  deriving DecidableEq

instance : Fintype Channel :=
  ⟨⟨{Channel.hsync, Channel.vsync, Channel.rgb}, by decide⟩, by
    intro x
    cases x <;> decide⟩

/-- The period constant `main` loads into each timing channel
(src/vga.c lines 164-166). -/
def periodOf : Channel → Nat
  | Channel.hsync => H_ACTIVE
  | Channel.vsync => V_ACTIVE
  | Channel.rgb => RGB_ACTIVE

/-- One hardware call in the start-up sequence of `main`. -/
inductive MainEvent where
  /-- Call `<name>_program_init(pio, sm, offset, pin)` for one state machine. -/
  | programInit (ch : Channel)
  /-- Call `dma_channel_configure` for channel 0, the color-data Streamer. -/
  | configureDmaStreamer
  /-- Call `dma_channel_configure` for channel 1, the Rearmer. -/
  | configureDmaRearmer
  /-- Call `pio_sm_put_blocking(pio, sm, period)`: load a period constant. -/
  | putPeriod (ch : Channel) (period : Nat)
  /-- Call `pio_enable_sm_mask_in_sync`: start a set of state machines on the
  same clock edge, as one atomic action. -/
  | enableInSync (chs : List Channel)
  /-- Call `dma_start_channel_mask(1u << rgb_chan_0)`: start the Streamer. -/
  | startDma
  deriving DecidableEq

/-- The start-up sequence of `main`, src/vga.c lines 112-179, in program order. -/
def mainStartup : List MainEvent :=
  [MainEvent.programInit Channel.hsync,
   MainEvent.programInit Channel.vsync,
   MainEvent.programInit Channel.rgb,
   MainEvent.configureDmaStreamer,
   MainEvent.configureDmaRearmer,
   MainEvent.putPeriod Channel.hsync H_ACTIVE,
   MainEvent.putPeriod Channel.vsync V_ACTIVE,
   MainEvent.putPeriod Channel.rgb RGB_ACTIVE,
   MainEvent.enableInSync [Channel.hsync, Channel.vsync, Channel.rgb],
   MainEvent.startDma]

/-- Does the event start one or more timing channels? -/
def isChannelStart : MainEvent → Bool
  | MainEvent.enableInSync _ => true
  | _ => false

/-- Does the event start the Streamer (DMA channel 0)? -/
def startsStreamer : MainEvent → Bool
  | MainEvent.startDma => true
  | _ => false

/-!
The pixel addressing map.
-/

/-- The addressing map of `drawPixel`: pixel `(x, y)` of the active area maps
to array element `640*y + x`, landing in `[0, TXCOUNT)`. -/
def pixelEnc (p : Fin 640 × Fin 350) : Fin TXCOUNT :=
  ⟨640 * p.2.val + p.1.val, by
    have h1 := p.1.isLt
    have h2 := p.2.isLt
    show 640 * p.2.val + p.1.val < 224000
    omega⟩

/-!
Helper lemmas shared by the claim theorems.
-/

/-- The sequential range checks of `drawPixel` amount to clamping into the
active area, and the write lands at the packed index of the clamped
coordinates. -/
lemma drawPixel_eq_clamped (s : PixelStore) (x y c : Int) :
    drawPixel s x y c =
      writeStore s (640 * specClampY y + specClampX x).toNat (c % 256).toNat := by
  have hx : (if (if x > 639 then (639 : Int) else x) < 0 then 0
      else if x > 639 then (639 : Int) else x) = specClampX x := by
    unfold specClampX
    split_ifs <;> omega
  have hy : (if (if y < 0 then (0 : Int) else y) > 349 then 349
      else if y < 0 then (0 : Int) else y) = specClampY y := by
    unfold specClampY
    split_ifs <;> omega
  simp only [drawPixel, hx, hy]

/-- The packed index of clamped coordinates is always inside the array. -/
lemma clampedIndex_lt (x y : Int) :
    (640 * specClampY y + specClampX x).toNat < TXCOUNT := by
  unfold specClampX specClampY TXCOUNT
  omega

/-- Reading back the pixel just written returns the stored byte, the color
modulo 256, whenever the coordinates are in the active area. -/
lemma readPixel_drawPixel (s : PixelStore) (x y c : Int)
    (hx0 : 0 ≤ x) (hx : x ≤ 639) (hy0 : 0 ≤ y) (hy : y ≤ 349) :
    readPixel (drawPixel s x y c) x y = (c % 256).toNat := by
  rw [drawPixel_eq_clamped]
  unfold readPixel writeStore specClampX specClampY
  rw [if_pos (by omega)]

/-- Writing the same array element twice keeps only the second value. -/
lemma writeStore_writeStore (s : PixelStore) (i v1 v2 : Nat) :
    writeStore (writeStore s i v1) i v2 = writeStore s i v2 := by
  funext j
  unfold writeStore
  by_cases h : j = i <;> simp [h]

/-- After `n` consumption events the Streamer cursor sits at `n % N` with
`N - n % N` transfers remaining. -/
lemma streamStep_iterate (N : Nat) (hN : 0 < N) (n : Nat) :
    (streamStep N)^[n] (streamInit N) = ⟨n % N, N - n % N⟩ := by
  induction n with
  | zero => simp [streamInit]
  | succ n ih =>
    rw [Function.iterate_succ_apply', ih]
    have hlt : n % N < N := Nat.mod_lt _ hN
    have key : (n % N + 1) % N = (n + 1) % N := Nat.mod_add_mod n N 1
    simp only [streamStep, streamInit]
    split_ifs with h
    · have hz : (n + 1) % N = 0 := by
        have hN1 : n % N + 1 = N := by omega
        rw [← key, hN1, Nat.mod_self]
      rw [hz]
      simp
    · have hs : (n + 1) % N = n % N + 1 := by
        rw [← key]
        exact Nat.mod_eq_of_lt (by omega)
      rw [hs]
      simp only [StreamerState.mk.injEq]
      exact ⟨trivial, by omega⟩

/-!
The claim theorems.
-/

/-- C1: after scanout starts, the `n`-th word delivered to the color timing
channel is `words[n % WORDS_PER_FRAME]`: the Streamer emits the store in
order and after exactly `WORDS_PER_FRAME` consumption events the Rearmer has
reset the cursor to 0, so the stream is the store replayed as a ring; in
particular this holds for the configured count `TXCOUNT`, and a store of
size 5 holding `[1,2,3,4,5]` yields `[1,2,3,4,5,1,2,3,4,5,1,2]` over 12
events. -/
theorem streamer_ring_property :
    (∀ (N : Nat) (words : Nat → Nat) (n : Nat), 0 < N →
        nthWord N words n = words (n % N))
    ∧ (∀ (words : Nat → Nat) (n : Nat),
        nthWord TXCOUNT words n = words (n % TXCOUNT))
    ∧ streamList 5 exWords 12 = [1, 2, 3, 4, 5, 1, 2, 3, 4, 5, 1, 2] := by
  have main : ∀ (N : Nat) (words : Nat → Nat) (n : Nat), 0 < N →
      nthWord N words n = words (n % N) := by
    intro N words n hN
    unfold nthWord
    rw [streamStep_iterate N hN n]
  exact ⟨main, fun words n => main TXCOUNT words n (by decide), by decide⟩

/-- Witness for C1 at the example store: event 11 delivers `words[11 % 5]`. -/
theorem streamer_ring_property_witness :
    0 < 5 ∧ nthWord 5 exWords 11 = exWords (11 % 5) :=
  ⟨by decide, streamer_ring_property.1 5 exWords 11 (by decide)⟩

/-- C2: `drawPixel` clamps `x` into `[0, 639]` and `y` into `[0, 349]`
rather than rejecting out-of-range coordinates, then stores the color (as a
byte) at linear pixel index `640*y + x` of the clamped coordinates. -/
theorem drawPixel_clamps_and_writes (s : PixelStore) (x y c : Int) :
    drawPixel s x y c =
      writeStore s (640 * max 0 (min y 349) + max 0 (min x 639)).toNat
        (c % 256).toNat :=
  drawPixel_eq_clamped s x y c

/-- C3: no call to `drawPixel`, with any integer arguments, writes outside
array bounds: every element at index `TXCOUNT` or beyond is untouched. -/
theorem drawPixel_stays_in_bounds (s : PixelStore) (x y c : Int) (j : Nat)
    (hj : TXCOUNT ≤ j) : drawPixel s x y c j = s j := by
  rw [drawPixel_eq_clamped]
  unfold writeStore
  have hcl := clampedIndex_lt x y
  rw [if_neg (by omega)]

/-- Witness for C3 at a far out-of-range call. -/
theorem drawPixel_stays_in_bounds_witness :
    TXCOUNT ≤ 224000 ∧ drawPixel zeroStore 700 400 5 224000 = zeroStore 224000 :=
  ⟨by decide, drawPixel_stays_in_bounds zeroStore 700 400 5 224000 (by decide)⟩

/-- C4: two successive writes to one in-range pixel leave exactly the second
color, with no residual bits from the first. -/
theorem drawPixel_second_write_wins (s : PixelStore) (x y c1 c2 : Int)
    (hx0 : 0 ≤ x) (hx : x ≤ 639) (hy0 : 0 ≤ y) (hy : y ≤ 349)
    (hc0 : 0 ≤ c2) (hc : c2 < 256) :
    readPixel (drawPixel (drawPixel s x y c1) x y c2) x y = c2.toNat := by
  rw [readPixel_drawPixel _ x y c2 hx0 hx hy0 hy, Int.emod_eq_of_lt hc0 hc]

/-- Witness for C4 at pixel (3, 5) with colors 7 then 9. -/
theorem drawPixel_second_write_wins_witness :
    ((0 : Int) ≤ 3 ∧ (3 : Int) ≤ 639 ∧ (0 : Int) ≤ 5 ∧ (5 : Int) ≤ 349
      ∧ (0 : Int) ≤ 9 ∧ (9 : Int) < 256)
    ∧ readPixel (drawPixel (drawPixel zeroStore 3 5 7) 3 5 9) 3 5 = Int.toNat 9 :=
  ⟨by decide,
   drawPixel_second_write_wins zeroStore 3 5 7 9 (by decide) (by decide)
     (by decide) (by decide) (by decide) (by decide)⟩

/-- Counterexample to C5: writing color 1 then color 2 to pixel (0, 0)
leaves the stored byte 2, not `1 OR 2 = 3`: the code overwrites the whole
byte, it does not OR-accumulate. -/
theorem drawPixel_or_accumulate_false :
    drawPixel (drawPixel zeroStore 0 0 1) 0 0 2 0 = 2 ∧ (2 : Nat) ≠ 1 ||| 2 := by
  decide

/-- C5 amended: repeated `drawPixel` calls to the same coordinates overwrite:
the store after writing `c1` then `c2` equals the store after writing `c2`
alone, for all coordinates and colors. -/
theorem drawPixel_overwrites (s : PixelStore) (x y c1 c2 : Int) :
    drawPixel (drawPixel s x y c1) x y c2 = drawPixel s x y c2 := by
  simp only [drawPixel_eq_clamped]
  exact writeStore_writeStore s _ _ _

/-- Counterexample to C6: `drawPixel` at color 64 stores the byte 64, not
`64 % 64 = 0`: the stored value is the color modulo 256 (the `char`
conversion), not modulo 64. -/
theorem drawPixel_mod64_false :
    readPixel (drawPixel zeroStore 0 0 64) 0 0 = 64
    ∧ readPixel (drawPixel zeroStore 0 0 64) 0 0 ≠ (64 : Nat) % 64 := by
  decide

/-- C6 amended: `drawPixel` accepts any color code without rejection and
stores its low 8 bits: the stored value equals the color modulo 256 (no
6-bit masking happens in the driver; only the wiring of the low 6 bits to
the RGB pins limits the displayed colors to 64). -/
theorem drawPixel_stores_mod256 (s : PixelStore) (x y c : Int)
    (hx0 : 0 ≤ x) (hx : x ≤ 639) (hy0 : 0 ≤ y) (hy : y ≤ 349) :
    readPixel (drawPixel s x y c) x y = (c % 256).toNat :=
  readPixel_drawPixel s x y c hx0 hx hy0 hy

/-- Witness for C6 amended: color 300 is stored as `300 % 256 = 44`. -/
theorem drawPixel_stores_mod256_witness :
    ((0 : Int) ≤ 0 ∧ (0 : Int) ≤ 639 ∧ (0 : Int) ≤ 0 ∧ (0 : Int) ≤ 349)
    ∧ readPixel (drawPixel zeroStore 0 0 300) 0 0 = Int.toNat (300 % 256) :=
  ⟨by decide,
   drawPixel_stores_mod256 zeroStore 0 0 300 (by decide) (by decide)
     (by decide) (by decide)⟩

/-- C7: for in-range coordinates and a 6-bit color code, writing then
reading back through the inverse of the packing map returns exactly the
color. -/
theorem drawPixel_readback_roundtrip (s : PixelStore) (x y c : Int)
    (hx0 : 0 ≤ x) (hx : x ≤ 639) (hy0 : 0 ≤ y) (hy : y ≤ 349)
    (hc0 : 0 ≤ c) (hc : c < 64) :
    readPixel (drawPixel s x y c) x y = c.toNat := by
  rw [readPixel_drawPixel s x y c hx0 hx hy0 hy,
      Int.emod_eq_of_lt hc0 (by omega)]

/-- Witness for C7 at pixel (10, 20) with color 42. -/
theorem drawPixel_readback_roundtrip_witness :
    ((0 : Int) ≤ 10 ∧ (10 : Int) ≤ 639 ∧ (0 : Int) ≤ 20 ∧ (20 : Int) ≤ 349
      ∧ (0 : Int) ≤ 42 ∧ (42 : Int) < 64)
    ∧ readPixel (drawPixel zeroStore 10 20 42) 10 20 = Int.toNat 42 :=
  ⟨by decide,
   drawPixel_readback_roundtrip zeroStore 10 20 42 (by decide) (by decide)
     (by decide) (by decide) (by decide) (by decide)⟩

/-- Counterexample to C8: `drawPixel(0, 0, 63)` stores the byte 63 at
element 0, whose top six bits are `63 / 4 = 15`, not `111111`; and the store
is not sized for a dense-packed 640x480 frame (`TXCOUNT` is neither
`640*480/5` packed words nor `640*480` pixels): the code has no dense
packing policy and no 640x480 preset. -/
theorem dense_packing_640x480_false :
    drawPixel zeroStore 0 0 63 0 = 63
    ∧ drawPixel zeroStore 0 0 63 0 / 4 ≠ 63
    ∧ TXCOUNT ≠ 640 * 480 / 5
    ∧ TXCOUNT ≠ 640 * 480 := by
  decide

/-- C8 amended: the only packing the code implements is wide, one byte per
pixel, on a 640x350 frame (`TXCOUNT = 640 * 350`); `drawPixel(0, 0, 63)`
sets storage element 0 to 63, whose low six bits are `111111` and whose
remaining bits are 0, and leaves every other element unchanged. -/
theorem wide_packing_640x350 :
    TXCOUNT = 640 * 350
    ∧ drawPixel zeroStore 0 0 63 0 = 63
    ∧ drawPixel zeroStore 0 0 63 0 % 64 = 63
    ∧ drawPixel zeroStore 0 0 63 0 / 64 = 0
    ∧ (∀ j : Nat, j ≠ 0 → drawPixel zeroStore 0 0 63 j = 0) := by
  refine ⟨by decide, by decide, by decide, by decide, ?_⟩
  intro j hj
  rw [drawPixel_eq_clamped]
  unfold writeStore
  have h0 : (640 * specClampY 0 + specClampX 0).toNat = 0 := by decide
  rw [h0, if_neg hj]
  rfl

/-- Witness for C8 amended: element 5 is untouched. -/
theorem wide_packing_640x350_witness :
    (5 : Nat) ≠ 0 ∧ drawPixel zeroStore 0 0 63 5 = 0 :=
  ⟨by decide, wide_packing_640x350.2.2.2.2 5 (by decide)⟩

/-- C9: in the start-up sequence of `main`, every start action is preceded
by the loading of the period constant into each of the three timing
channels; the only action that starts timing channels is the single
`pio_enable_sm_mask_in_sync` call covering all three at once; and the
Streamer DMA start comes strictly after that synchronized start. -/
theorem startup_order :
    (∀ i : Fin mainStartup.length,
        (isChannelStart (mainStartup.get i) = true
          ∨ startsStreamer (mainStartup.get i) = true) →
        ∀ ch : Channel, ∃ j : Fin mainStartup.length,
          j.val < i.val ∧ mainStartup.get j = MainEvent.putPeriod ch (periodOf ch))
    ∧ (∀ i : Fin mainStartup.length, isChannelStart (mainStartup.get i) = true →
        mainStartup.get i
          = MainEvent.enableInSync [Channel.hsync, Channel.vsync, Channel.rgb])
    ∧ (∀ i : Fin mainStartup.length, startsStreamer (mainStartup.get i) = true →
        ∃ j : Fin mainStartup.length, j.val < i.val ∧
          mainStartup.get j
            = MainEvent.enableInSync [Channel.hsync, Channel.vsync, Channel.rgb]) := by
  decide

/-- Witness for C9 at the Streamer start (position 9 of the sequence): the
synchronized channel start precedes it. -/
theorem startup_order_witness :
    startsStreamer (mainStartup.get ⟨9, by decide⟩) = true
    ∧ (∃ j : Fin mainStartup.length, j.val < (9 : Nat) ∧
        mainStartup.get j
          = MainEvent.enableInSync [Channel.hsync, Channel.vsync, Channel.rgb]) :=
  ⟨by decide, startup_order.2.2 ⟨9, by decide⟩ (by decide)⟩

/-- C10: `TXCOUNT = 640 * 350` with one storage byte per pixel, and the
addressing map `(x, y) ↦ 640*y + x` is a bijection from the active area
onto `[0, TXCOUNT)`: distinct in-range pixels never alias, and every
storage element corresponds to exactly one pixel. -/
theorem addressing_map_bijective :
    TXCOUNT = 640 * 350 ∧ Function.Bijective pixelEnc := by
  refine ⟨by decide, ?_, ?_⟩
  · rintro ⟨⟨x1, hx1⟩, ⟨y1, hy1⟩⟩ ⟨⟨x2, hx2⟩, ⟨y2, hy2⟩⟩ h
    simp only [pixelEnc, Fin.mk.injEq] at h
    simp only [Prod.mk.injEq, Fin.mk.injEq]
    omega
  · rintro ⟨n, hn⟩
    have hn2 : n < 224000 := hn
    refine ⟨(⟨n % 640, by omega⟩, ⟨n / 640, by omega⟩), ?_⟩
    simp only [pixelEnc, Fin.mk.injEq]
    omega

end VGA
